import Mathlib

/-!
# Verification of the form-mcp session engine

Shallow embedding of the core engine of `form-mcp`
(`src/formTypes.ts` + `src/formEngine.ts`): question-order derivation,
session creation, field mutation, navigation, and schema-validation
aggregation.

Modelling decisions:

* TypeScript `Record<string, T>` objects (`data`, `fields`, and the
  reconstructed nested document) are modelled as association lists
  `List (String × T)` with JavaScript object-assignment semantics:
  updating an existing key rewrites its value in place (keeping its
  position in enumeration order), a new key is appended at the end.
* Dynamic (`unknown`) JSON values are modelled by the inductive
  `JsonValue`.  JavaScript arrays have `typeof _ === "object"` and are
  truthy, so for the purposes of `setDeepValue`'s container test they
  behave exactly like plain objects (string-keyed property assignment);
  they are therefore represented by the `obj` constructor as well, and
  every non-`obj` value is a non-container.
* The engine only ever inspects `schema.type === "object"` and
  `schema.properties`; all other schema keywords are consumed solely by
  the external Ajv validator.  `JsonSchema` therefore records `type`
  (an optional string; a `string[]`-typed `type` never equals
  `"object"` and is covered by any non-`"object"` value) and
  `properties`.
* Ajv is an external library, not code of this repository.  Following
  the spec ("delegates structural checking to an external JSON-Schema
  validator"), a compiled validator is modelled as an abstract pure
  function `Validator : JsonSchema → JsonValue → Bool × List AjvError`
  returning the overall verdict and the collected error objects, as
  `ajv.compile(schema)` followed by `validate(doc)` / `validate.errors`
  does.  Engine theorems are universally quantified over this function.
* `uuidv4()` is an external id generator; `createSession` takes the
  generated id as an explicit argument.
-/

/-- Dynamic JSON-ish value (TypeScript `unknown`).  `obj` covers every
JavaScript value with `typeof v === "object" && v` (plain objects and
arrays); all other constructors are non-containers. -/
inductive JsonValue where
  | null
  | bool (b : Bool)
  | num (n : Int)
  | str (s : String)
  | obj (fields : List (String × JsonValue))
deriving Repr

/-- The part of the TypeScript `JsonSchema` record the engine itself
inspects: `type` and `properties` (other keywords are only seen by the
external validator). -/
inductive JsonSchema where
  | mk (type : Option String) (properties : Option (List (String × JsonSchema)))
deriving Repr

/-- `schema.type` projection. -/
def JsonSchema.type : JsonSchema → Option String
  | JsonSchema.mk t _ => t

/-- `schema.properties` projection. -/
def JsonSchema.properties : JsonSchema → Option (List (String × JsonSchema))
  | JsonSchema.mk _ p => p

/-- `FormFieldState` from `formTypes.ts`.  `value` is `Option` because
`runSchemaValidation` seeds missing fields with `value: undefined`. -/
structure FormFieldState where
  path : String
  value : Option JsonValue
  schemaValid : Bool
  messages : List String
  touched : Bool
deriving Repr

/-- `FormStatus` from `formTypes.ts`. -/
inductive FormStatus where
  | notStarted
  | inProgress
  | complete
deriving Repr, DecidableEq

/-- `FormOverallValidity` from `formTypes.ts`. -/
inductive FormOverallValidity where
  | unknown
  | valid
  | invalid
deriving Repr, DecidableEq

/-- `FormDefinition` from `formTypes.ts`. -/
structure FormDefinition where
  id : String
  name : String
  schema : JsonSchema
deriving Repr

/-- `FormSession` from `formTypes.ts` (with the optional `userId` the
engine attaches at creation). -/
structure FormSession where
  sessionId : String
  userId : Option String
  formId : String
  definitionSnapshot : FormDefinition
  data : List (String × JsonValue)
  fields : List (String × FormFieldState)
  status : FormStatus
  overallValidity : FormOverallValidity
  questionOrder : List String
  currentQuestionIndex : Nat
deriving Repr

/-- JavaScript object property lookup `m[k]` (`none` = `undefined`). -/
def alLookup {α : Type} : List (String × α) → String → Option α
  | [], _ => none
  | (k1, v1) :: rest, k => if k1 = k then some v1 else alLookup rest k

/-- JavaScript object property assignment `m[k] = v`: an existing key is
rewritten in place, a new key is appended. -/
def alUpdate {α : Type} : List (String × α) → String → α → List (String × α)
  | [], k, v => [(k, v)]
  | (k1, v1) :: rest, k, v =>
      if k1 = k then (k1, v) :: rest else (k1, v1) :: alUpdate rest k v

/-- Helper for building child paths: `basePath ? basePath + "." + key : key`. -/
def childPath (basePath key : String) : String :=
  if basePath = "" then key else basePath ++ "." ++ key

/-- JavaScript `s.split(sep)` for a one-character separator, on the
character list: `"" ↦ [""]`, `"a.b" ↦ ["a","b"]`, `"a." ↦ ["a",""]`. -/
def splitCharList (c : Char) : List Char → List (List Char)
  | [] => [[]]
  | a :: rest =>
      match splitCharList c rest with
      | [] => [[]]
      | h :: t => if a = c then [] :: h :: t else (a :: h) :: t

/-- JavaScript `path.split(".")` (the separator is the single character
`'.'`, so splitting is character-wise). -/
def splitOnDot (s : String) : List String :=
  (splitCharList '.' s.data).map String.mk

/-- JavaScript `s.replace(/x/g, y)` for one-character `x`/`y`:
character-wise global replacement. -/
def replaceChar (a b : Char) (s : String) : String :=
  String.mk (s.data.map (fun c => if c = a then b else c))

/-- JavaScript `s.replace(/^\//, "")`: drop one leading `/` if present. -/
def stripLeadingSlash (s : String) : String :=
  match s.data with
  | [] => s
  | c :: rest => if c = '/' then String.mk rest else s

mutual
/-- `deriveQuestionOrder` from `formEngine.ts`: depth-first pre-order
traversal of an object schema's properties (the TypeScript default for
`basePath` is `""`). -/
def deriveQuestionOrder (schema : JsonSchema) (basePath : String) : List String :=
  match schema with
  | JsonSchema.mk ty props =>
    if ty = some "object" then
      match props with
      | some ps => derivePropsOrder ps basePath
      | none => []
    else []

/-- The `for (const key of Object.keys(schema.properties))` loop of
`deriveQuestionOrder`: each property path is pushed before its own
children are recursively expanded. -/
def derivePropsOrder (ps : List (String × JsonSchema)) (basePath : String) : List String :=
  match ps with
  | [] => []
  | (key, child) :: rest =>
      (childPath basePath key :: deriveQuestionOrder child (childPath basePath key))
        ++ derivePropsOrder rest basePath
end

/-- The container reused (or freshly created) by `setDeepValue` under
`key`: an existing object survives, everything else — a missing key, a
primitive, or `null` — is replaced by `{}`
(`if (!current[key] || typeof current[key] !== "object") current[key] = {}`). -/
def childContainer (target : List (String × JsonValue)) (key : String) :
    List (String × JsonValue) :=
  match alLookup target key with
  | some (JsonValue.obj o) => o
  | _ => []

/-- The walking loop of `setDeepValue` from `formEngine.ts`, indexed by
the already-split path parts.  The `[]` case cannot arise from
`String.splitOn` (it never returns an empty list) and leaves the target
unchanged, as a zero-iteration loop would. -/
def setDeepParts : List (String × JsonValue) → List String → JsonValue →
    List (String × JsonValue)
  | target, [], _ => target
  | target, [key], v => alUpdate target key v
  | target, key :: k2 :: rest, v =>
      alUpdate target key (JsonValue.obj (setDeepParts (childContainer target key) (k2 :: rest) v))

/-- `setDeepValue` from `formEngine.ts`: split the path on `"."` and
walk/build nested containers. -/
def setDeepValue (target : List (String × JsonValue)) (path : String) (value : JsonValue) :
    List (String × JsonValue) :=
  setDeepParts target (splitOnDot path) value

/-- The `grouped` document of `runSchemaValidation`: fold `setDeepValue`
over `Object.entries(session.data)` in insertion order, starting from `{}`. -/
def buildDocument (data : List (String × JsonValue)) : List (String × JsonValue) :=
  data.foldl (fun acc pv => setDeepValue acc pv.1 pv.2) []

/-- `normalizeAjvPath` from `formEngine.ts`: empty path stays empty, one
leading `/` is stripped, every remaining `/` becomes `.`. -/
def normalizeAjvPath (instancePath : String) : String :=
  if instancePath = "" then ""
  else replaceChar '/' '.' (stripLeadingSlash instancePath)

/-- An Ajv `ErrorObject`, reduced to the members the engine reads. -/
structure AjvError where
  instancePath : String
  message : Option String
deriving Repr

/-- A compiled external JSON-Schema validator (Ajv), as a pure function
of the schema and the document: overall verdict plus collected errors. -/
def Validator : Type :=
  JsonSchema → JsonValue → Bool × List AjvError

/-- The `fieldErrors` map of `runSchemaValidation`: error messages
(`err.message ?? "Validation error"`) grouped by normalized instance
path, in encounter order. -/
def groupErrors (errors : List AjvError) : List (String × List String) :=
  errors.foldl
    (fun m e =>
      let path := normalizeAjvPath e.instancePath
      let cur := (alLookup m path).getD []
      alUpdate m path (cur ++ [e.message.getD "Validation error"]))
    []

/-- `fieldErrors.get(path) ?? []`. -/
def fieldErrorsFor (errors : List AjvError) (path : String) : List String :=
  (alLookup (groupErrors errors) path).getD []

/-- The seed used when `session.fields[path]` is absent in the rewrite
loop of `runSchemaValidation`. -/
def defaultFieldState (path : String) : FormFieldState :=
  { path := path, value := none, schemaValid := true, messages := [], touched := false }

/-- One iteration of the `for (const path of session.questionOrder)`
loop of `runSchemaValidation`. -/
def rewriteStep (ef : String → List String)
    (fs : List (String × FormFieldState)) (path : String) :
    List (String × FormFieldState) :=
  let existing := (alLookup fs path).getD (defaultFieldState path)
  let errs := ef path
  alUpdate fs path { existing with schemaValid := errs.isEmpty, messages := errs }

/-- The whole field-rewrite loop of `runSchemaValidation`. -/
def rewriteFields (ef : String → List String)
    (fs : List (String × FormFieldState)) (order : List String) :
    List (String × FormFieldState) :=
  order.foldl (rewriteStep ef) fs

/-- The `validate(grouped)` verdict for a session's current data. -/
def sessionValid (V : Validator) (s : FormSession) : Bool :=
  (V s.definitionSnapshot.schema (JsonValue.obj (buildDocument s.data))).1

/-- The `validate.errors ?? []` list for a session's current data. -/
def sessionErrors (V : Validator) (s : FormSession) : List AjvError :=
  (V s.definitionSnapshot.schema (JsonValue.obj (buildDocument s.data))).2

/-- `runSchemaValidation` from `formEngine.ts`, parameterized by the
external validator. -/
def runSchemaValidation (V : Validator) (s : FormSession) : FormSession :=
  let valid := sessionValid V s
  let errors := sessionErrors V s
  { s with
      fields := rewriteFields (fieldErrorsFor errors) s.fields s.questionOrder
      overallValidity := if valid then FormOverallValidity.valid else FormOverallValidity.invalid
      status := if valid then FormStatus.complete else s.status }

/-- `setFieldValue` from `formEngine.ts`: write `data[path]`, upsert
`fields[path]` (preserving prior `schemaValid`/`messages`, setting
`touched`), promote `not-started` to `in-progress`, then auto-validate. -/
def setFieldValue (V : Validator) (s : FormSession) (path : String) (value : JsonValue) :
    FormSession :=
  let existing := alLookup s.fields path
  let updated : FormFieldState :=
    { path := path
      value := some value
      schemaValid := (existing.map FormFieldState.schemaValid).getD false
      messages := (existing.map FormFieldState.messages).getD []
      touched := true }
  let s1 : FormSession :=
    { s with
        data := alUpdate s.data path value
        fields := alUpdate s.fields path updated
        status := if s.status = FormStatus.notStarted then FormStatus.inProgress else s.status }
  runSchemaValidation V s1

/-- `moveToNextQuestion` from `formEngine.ts`.  With `Nat` subtraction,
`questionOrder.length - 1` is `0` when the order is empty, and the
guard is false for every `Nat` index, just as `idx < -1` is in
JavaScript. -/
def moveToNextQuestion (s : FormSession) : FormSession :=
  if s.currentQuestionIndex < s.questionOrder.length - 1 then
    { s with currentQuestionIndex := s.currentQuestionIndex + 1 }
  else s

/-- `moveToPreviousQuestion` from `formEngine.ts`. -/
def moveToPreviousQuestion (s : FormSession) : FormSession :=
  if s.currentQuestionIndex > 0 then
    { s with currentQuestionIndex := s.currentQuestionIndex - 1 }
  else s

/-- `getCurrentQuestionPath` from `formEngine.ts` (`?? null` becomes
`Option`). -/
def getCurrentQuestionPath (s : FormSession) : Option String :=
  s.questionOrder.get? s.currentQuestionIndex

/-- A navigation call. -/
inductive NavMove where
  | next
  | prev
deriving Repr, DecidableEq

/-- Apply one navigation call. -/
def applyMove (m : NavMove) (s : FormSession) : FormSession :=
  match m with
  | NavMove.next => moveToNextQuestion s
  | NavMove.prev => moveToPreviousQuestion s

/-- Apply a finite sequence of navigation calls, left to right. -/
def applyMoves (ms : List NavMove) (s : FormSession) : FormSession :=
  ms.foldl (fun s m => applyMove m s) s

/-- `InMemoryFormStore` from `formEngine.ts`. -/
structure InMemoryFormStore where
  forms : List (String × FormDefinition)
  sessions : List (String × FormSession)
deriving Repr

/-- `InMemoryFormStore.registerForm`. -/
def registerForm (st : InMemoryFormStore) (d : FormDefinition) : InMemoryFormStore :=
  { st with forms := alUpdate st.forms d.id d }

/-- `InMemoryFormStore.createSession`, with the `uuidv4()` result passed
in as `newSessionId`.  A missing form id throws before any store
mutation; this is modelled by returning the untouched store together
with the error. -/
def createSession (st : InMemoryFormStore) (formId : String) (userId : Option String)
    (newSessionId : String) : InMemoryFormStore × Except String FormSession :=
  match alLookup st.forms formId with
  | none => (st, Except.error ("Form not found: " ++ formId))
  | some form =>
      let session : FormSession :=
        { sessionId := newSessionId
          userId := userId
          formId := formId
          definitionSnapshot := form
          data := []
          fields := []
          status := FormStatus.notStarted
          overallValidity := FormOverallValidity.unknown
          questionOrder := deriveQuestionOrder form.schema ""
          currentQuestionIndex := 0 }
      ({ st with sessions := alUpdate st.sessions newSessionId session }, Except.ok session)

/-- `InMemoryFormStore.getSession`. -/
def getSession (st : InMemoryFormStore) (sessionId : String) : Option FormSession :=
  alLookup st.sessions sessionId


/-! ## Concrete instances used in examples and counterexamples -/

/-- A leaf (non-object) schema. -/
def leafSchema : JsonSchema := JsonSchema.mk (some "string") none

/-- `{type: "object", properties: {a: string}}`. -/
def objSchemaA : JsonSchema :=
  JsonSchema.mk (some "object") (some [("a", leafSchema)])

/-- The spec example schema `{object: {a: string, b: {object: {c: string}}}}`. -/
def exampleNestedSchema : JsonSchema :=
  JsonSchema.mk (some "object")
    (some [("a", leafSchema),
           ("b", JsonSchema.mk (some "object") (some [("c", leafSchema)]))])

/-- An external validator that accepts every document with no errors. -/
def acceptAllValidator : Validator := fun _ _ => (true, [])

/-- An external validator that rejects every document, attributing one
violation to instance path `/a`. -/
def rejectValidatorA : Validator :=
  fun _ _ => (false, [{ instancePath := "/a", message := some "must be string" }])

/-- A fresh session over the leaf schema: empty `questionOrder`, no
answers. -/
def emptyOrderSession : FormSession :=
  { sessionId := "s-empty"
    userId := none
    formId := "form-leaf"
    definitionSnapshot := { id := "form-leaf", name := "Leaf", schema := leafSchema }
    data := []
    fields := []
    status := FormStatus.notStarted
    overallValidity := FormOverallValidity.unknown
    questionOrder := deriveQuestionOrder leafSchema ""
    currentQuestionIndex := 0 }

/-- A session over `objSchemaA` (`questionOrder = ["a"]`) with one
answer supplied for `a`. -/
def orderASession : FormSession :=
  { sessionId := "s-a"
    userId := none
    formId := "form-a"
    definitionSnapshot := { id := "form-a", name := "A", schema := objSchemaA }
    data := [("a", JsonValue.num 5)]
    fields := []
    status := FormStatus.inProgress
    overallValidity := FormOverallValidity.unknown
    questionOrder := deriveQuestionOrder objSchemaA ""
    currentQuestionIndex := 0 }

/-- `emptyOrderSession` already marked complete. -/
def completeSession : FormSession :=
  { emptyOrderSession with status := FormStatus.complete }

/-- A fresh never-answered session over `objSchemaA` (no property is
required, so the empty document is accepted by the real validator). -/
def freshSessionA : FormSession :=
  { sessionId := "s-fresh"
    userId := none
    formId := "form-a"
    definitionSnapshot := { id := "form-a", name := "A", schema := objSchemaA }
    data := []
    fields := []
    status := FormStatus.notStarted
    overallValidity := FormOverallValidity.unknown
    questionOrder := deriveQuestionOrder objSchemaA ""
    currentQuestionIndex := 0 }

/-- A registered form over `objSchemaA`. -/
def formA : FormDefinition := { id := "form-a", name := "A", schema := objSchemaA }

/-- A store holding exactly `formA` and no sessions. -/
def storeA : InMemoryFormStore := { forms := [("form-a", formA)], sessions := [] }

/-- The verdict of the validation pass triggered inside
`setFieldValue` (the auto-validation sees the just-updated data). -/
def postValid (V : Validator) (s : FormSession) (p : String) (v : JsonValue) : Bool :=
  sessionValid V (setFieldValue V s p v)

/-- The navigation bounds invariant of the spec:
`0 <= currentQuestionIndex <= max(0, len(questionOrder)-1)` (the lower
bound is intrinsic to `Nat`). -/
def navInv (s : FormSession) : Prop :=
  s.currentQuestionIndex ≤ max 0 (s.questionOrder.length - 1)


/-- The session record `createSession` builds for a registered form. -/
def mkFreshSession (form : FormDefinition) (formId newId : String)
    (userId : Option String) : FormSession :=
  { sessionId := newId
    userId := userId
    formId := formId
    definitionSnapshot := form
    data := []
    fields := []
    status := FormStatus.notStarted
    overallValidity := FormOverallValidity.unknown
    questionOrder := deriveQuestionOrder form.schema ""
    currentQuestionIndex := 0 }

/-! ## Association-list lemmas -/

theorem alLookup_alUpdate_self {α : Type} (m : List (String × α)) (k : String) (v : α) :
    alLookup (alUpdate m k v) k = some v := by
  induction m with
  | nil => simp [alUpdate, alLookup]
  | cons hd t ih =>
      obtain ⟨k1, v1⟩ := hd
      by_cases hk : k1 = k
      · simp [alUpdate, alLookup, hk]
      · simp [alUpdate, alLookup, hk, ih]

theorem alLookup_alUpdate_ne {α : Type} (m : List (String × α)) (k k2 : String) (v : α)
    (h : k ≠ k2) : alLookup (alUpdate m k v) k2 = alLookup m k2 := by
  induction m with
  | nil => simp [alUpdate, alLookup, h]
  | cons hd t ih =>
      obtain ⟨k1, v1⟩ := hd
      by_cases hk : k1 = k
      · subst hk
        simp [alUpdate, alLookup, h]
      · by_cases hk2 : k1 = k2
        · simp [alUpdate, alLookup, hk, hk2, Ne.symm h]
        · simp [alUpdate, alLookup, hk, hk2, ih]

theorem alUpdate_lookup_self {α : Type} (m : List (String × α)) (k : String) (v : α)
    (h : alLookup m k = some v) : alUpdate m k v = m := by
  induction m with
  | nil => simp [alLookup] at h
  | cons hd t ih =>
      obtain ⟨k1, v1⟩ := hd
      by_cases hk : k1 = k
      · subst hk
        simp [alLookup] at h
        simp [alUpdate, h]
      · simp [alLookup, hk] at h
        simp [alUpdate, hk, ih h]

/-! ## Field-rewrite-loop lemmas -/

theorem rewriteFields_nil (ef : String → List String) (fs : List (String × FormFieldState)) :
    rewriteFields ef fs [] = fs := rfl

theorem rewriteFields_cons (ef : String → List String) (fs : List (String × FormFieldState))
    (a : String) (order : List String) :
    rewriteFields ef fs (a :: order) = rewriteFields ef (rewriteStep ef fs a) order := rfl

theorem alLookup_rewriteStep_self (ef : String → List String)
    (fs : List (String × FormFieldState)) (p : String) :
    alLookup (rewriteStep ef fs p) p =
      some { (alLookup fs p).getD (defaultFieldState p) with
              schemaValid := (ef p).isEmpty, messages := ef p } :=
  alLookup_alUpdate_self ..

theorem alLookup_rewriteStep_ne (ef : String → List String)
    (fs : List (String × FormFieldState)) (a p : String) (h : a ≠ p) :
    alLookup (rewriteStep ef fs a) p = alLookup fs p :=
  alLookup_alUpdate_ne _ _ _ _ h

theorem rewriteFields_notMem (ef : String → List String) (order : List String)
    (fs : List (String × FormFieldState)) (p : String) (h : p ∉ order) :
    alLookup (rewriteFields ef fs order) p = alLookup fs p := by
  induction order generalizing fs with
  | nil => rfl
  | cons a rest ih =>
      have ha : a ≠ p := fun e => h (e ▸ List.mem_cons_self a rest)
      rw [rewriteFields_cons, ih _ (fun hm => h (List.mem_cons_of_mem _ hm)),
        alLookup_rewriteStep_ne _ _ _ _ ha]

theorem rewriteFields_mem (ef : String → List String) (order : List String)
    (fs : List (String × FormFieldState)) (p : String) (h : p ∈ order) :
    ∃ e, alLookup (rewriteFields ef fs order) p = some e ∧
      e.schemaValid = (ef p).isEmpty ∧ e.messages = ef p := by
  induction order generalizing fs with
  | nil => cases h
  | cons a rest ih =>
      by_cases hm : p ∈ rest
      · rw [rewriteFields_cons]
        exact ih _ hm
      · have hp : p = a := by
          rcases List.mem_cons.mp h with h1 | h2
          · exact h1
          · exact absurd h2 hm
        subst hp
        rw [rewriteFields_cons, rewriteFields_notMem ef rest _ p hm,
          alLookup_rewriteStep_self]
        exact ⟨_, rfl, rfl, rfl⟩

theorem rewriteFields_preserve (ef : String → List String) (order : List String)
    (fs : List (String × FormFieldState)) (p : String) (e : FormFieldState)
    (h : alLookup fs p = some e) :
    ∃ e2, alLookup (rewriteFields ef fs order) p = some e2 ∧
      e2.path = e.path ∧ e2.value = e.value ∧ e2.touched = e.touched := by
  induction order generalizing fs e with
  | nil => exact ⟨e, h, rfl, rfl, rfl⟩
  | cons a rest ih =>
      rw [rewriteFields_cons]
      by_cases ha : a = p
      · subst ha
        have hl : alLookup (rewriteStep ef fs a) a =
            some { e with schemaValid := (ef a).isEmpty, messages := ef a } := by
          rw [alLookup_rewriteStep_self, h]
          rfl
        obtain ⟨e2, h2, hp2, hv2, ht2⟩ := ih _ _ hl
        exact ⟨e2, h2, hp2, hv2, ht2⟩
      · exact ih _ e (by rw [alLookup_rewriteStep_ne ef fs a p ha]; exact h)

theorem rewriteFields_fixed (ef : String → List String) (order : List String)
    (fs : List (String × FormFieldState))
    (h : ∀ p ∈ order, ∃ e, alLookup fs p = some e ∧
      e.schemaValid = (ef p).isEmpty ∧ e.messages = ef p) :
    rewriteFields ef fs order = fs := by
  induction order with
  | nil => rfl
  | cons a rest ih =>
      obtain ⟨e, he, hs, hm⟩ := h a (List.mem_cons_self a rest)
      have hrec : { e with schemaValid := (ef a).isEmpty, messages := ef a } = e := by
        cases e
        simp only at hs hm
        simp [hs, hm]
      have hstep : rewriteStep ef fs a = fs := by
        unfold rewriteStep
        rw [he]
        simp only [Option.getD_some]
        rw [hrec]
        exact alUpdate_lookup_self _ _ _ he
      rw [rewriteFields_cons, hstep]
      exact ih (fun p hp => h p (List.mem_cons_of_mem _ hp))

/-! ## Projections of the engine operations -/

theorem runSchemaValidation_fields_eq (V : Validator) (s : FormSession) :
    (runSchemaValidation V s).fields =
      rewriteFields (fieldErrorsFor (sessionErrors V s)) s.fields s.questionOrder := rfl

theorem runSchemaValidation_status_eq (V : Validator) (s : FormSession) :
    (runSchemaValidation V s).status =
      if sessionValid V s then FormStatus.complete else s.status := rfl

theorem runSchemaValidation_validity_eq (V : Validator) (s : FormSession) :
    (runSchemaValidation V s).overallValidity =
      if sessionValid V s then FormOverallValidity.valid else FormOverallValidity.invalid := rfl

theorem runSchemaValidation_data_eq (V : Validator) (s : FormSession) :
    (runSchemaValidation V s).data = s.data := rfl

theorem runSchemaValidation_order_eq (V : Validator) (s : FormSession) :
    (runSchemaValidation V s).questionOrder = s.questionOrder := rfl

theorem sessionValid_runSchemaValidation (V : Validator) (s : FormSession) :
    sessionValid V (runSchemaValidation V s) = sessionValid V s := rfl

theorem sessionErrors_runSchemaValidation (V : Validator) (s : FormSession) :
    sessionErrors V (runSchemaValidation V s) = sessionErrors V s := rfl

/-- Record-update form of a validation result: updating `fields`,
`overallValidity`, and `status` back to their current values is the
identity. -/
theorem formSession_update_eq (s : FormSession)
    (f : List (String × FormFieldState)) (ov : FormOverallValidity) (st : FormStatus)
    (hf : f = s.fields) (ho : ov = s.overallValidity) (hs : st = s.status) :
    ({ s with fields := f, overallValidity := ov, status := st } : FormSession) = s := by
  subst hf
  subst ho
  subst hs
  rfl

/-- The `setFieldValue` body as one explicit record update followed by
the auto-validation pass. -/
theorem setFieldValue_eq (V : Validator) (s : FormSession) (p : String) (v : JsonValue) :
    setFieldValue V s p v = runSchemaValidation V
      { s with
          data := alUpdate s.data p v
          fields := alUpdate s.fields p
            { path := p
              value := some v
              schemaValid := ((alLookup s.fields p).map FormFieldState.schemaValid).getD false
              messages := ((alLookup s.fields p).map FormFieldState.messages).getD []
              touched := true }
          status := if s.status = FormStatus.notStarted then FormStatus.inProgress
            else s.status } := rfl

/-- C8: `runSchemaValidation` is idempotent — running it twice in a row
with no intervening data change yields exactly the same session (same
`fields` content, `overallValidity`, and `status`) as running it once. -/
theorem runSchemaValidation_idempotent (V : Validator) (s : FormSession) :
    runSchemaValidation V (runSchemaValidation V s) = runSchemaValidation V s := by
  show ({ runSchemaValidation V s with
      fields := rewriteFields (fieldErrorsFor (sessionErrors V (runSchemaValidation V s)))
        (runSchemaValidation V s).fields (runSchemaValidation V s).questionOrder
      overallValidity := if sessionValid V (runSchemaValidation V s) then
          FormOverallValidity.valid else FormOverallValidity.invalid
      status := if sessionValid V (runSchemaValidation V s) then FormStatus.complete
        else (runSchemaValidation V s).status } : FormSession) = runSchemaValidation V s
  apply formSession_update_eq
  · rw [sessionErrors_runSchemaValidation, runSchemaValidation_order_eq,
      runSchemaValidation_fields_eq]
    exact rewriteFields_fixed _ _ _ (fun p hp => rewriteFields_mem _ _ _ _ hp)
  · rw [sessionValid_runSchemaValidation, runSchemaValidation_validity_eq]
  · rw [sessionValid_runSchemaValidation, runSchemaValidation_status_eq]
    by_cases h : sessionValid V s <;> simp [h]

/-- C2: after `runSchemaValidation` returns, every path in
`questionOrder` has a `fields` entry whose `schemaValid` is true exactly
when the pass attributed no violation to that path, and whose
`messages` is exactly the list of violation messages for that path
(full replacement of whatever was stored before). -/
theorem validation_rewrites_all_order_fields (V : Validator) (s : FormSession) (p : String)
    (h : p ∈ s.questionOrder) :
    ∃ e, alLookup (runSchemaValidation V s).fields p = some e ∧
      (e.schemaValid = true ↔ fieldErrorsFor (sessionErrors V s) p = []) ∧
      e.messages = fieldErrorsFor (sessionErrors V s) p := by
  obtain ⟨e, he, hsv, hm⟩ :=
    rewriteFields_mem (fieldErrorsFor (sessionErrors V s)) s.questionOrder s.fields p h
  refine ⟨e, ?_, ?_, hm⟩
  · rw [runSchemaValidation_fields_eq]
    exact he
  · rw [hsv]
    simp [List.isEmpty_iff]

/-- C4: after `setFieldValue(session, path, value)` returns:
`data[path] = value`; `fields[path]` exists with `touched = true` and
`value = value`; `status` is no longer `not-started`; and the triggered
full validation pass has left `overallValidity` at `valid` or
`invalid`, never `unknown`. -/
theorem setFieldValue_postconditions (V : Validator) (s : FormSession) (p : String)
    (v : JsonValue) :
    alLookup (setFieldValue V s p v).data p = some v ∧
    (∃ e, alLookup (setFieldValue V s p v).fields p = some e ∧
      e.touched = true ∧ e.value = some v) ∧
    (setFieldValue V s p v).status ≠ FormStatus.notStarted ∧
    ((setFieldValue V s p v).overallValidity = FormOverallValidity.valid ∨
      (setFieldValue V s p v).overallValidity = FormOverallValidity.invalid) := by
  rw [setFieldValue_eq]
  set updated : FormFieldState :=
    { path := p
      value := some v
      schemaValid := ((alLookup s.fields p).map FormFieldState.schemaValid).getD false
      messages := ((alLookup s.fields p).map FormFieldState.messages).getD []
      touched := true } with hupd
  set s1 : FormSession :=
    { s with
        data := alUpdate s.data p v
        fields := alUpdate s.fields p updated
        status := if s.status = FormStatus.notStarted then FormStatus.inProgress
          else s.status } with hs1
  refine ⟨?_, ?_, ?_, ?_⟩
  · rw [runSchemaValidation_data_eq]
    exact alLookup_alUpdate_self s.data p v
  · have hl : alLookup s1.fields p = some updated := alLookup_alUpdate_self s.fields p updated
    obtain ⟨e2, h2, hp2, hv2, ht2⟩ :=
      rewriteFields_preserve (fieldErrorsFor (sessionErrors V s1)) s1.questionOrder
        s1.fields p updated hl
    refine ⟨e2, ?_, ?_, ?_⟩
    · rw [runSchemaValidation_fields_eq]
      exact h2
    · rw [ht2]
    · rw [hv2]
  · rw [runSchemaValidation_status_eq]
    have h1 : s1.status ≠ FormStatus.notStarted := by
      by_cases hns : s.status = FormStatus.notStarted
      · simp [hs1, hns]
      · simp only [hs1, hns, if_false]
        exact hns
    by_cases hval : sessionValid V s1
    · simp [hval]
    · simp only [hval, if_false]
      exact h1
  · rw [runSchemaValidation_validity_eq]
    by_cases hval : sessionValid V s1 <;> simp [hval]

/-- Status after `setFieldValue`: `complete` if the triggered pass
reported validity, otherwise `in-progress` when the session was
`not-started`, otherwise the previous status. -/
theorem setFieldValue_status_eq (V : Validator) (s : FormSession) (p : String)
    (v : JsonValue) :
    (setFieldValue V s p v).status =
      if postValid V s p v then FormStatus.complete
      else if s.status = FormStatus.notStarted then FormStatus.inProgress
      else s.status := rfl

/-- C3: status transition rules — `runSchemaValidation` sets `status`
to `complete` exactly when the pass reports overall validity and leaves
`status` untouched when it reports invalidity; a first answer through
`setFieldValue` moves a `not-started` session to `in-progress` (which
the triggered validation pass may immediately promote to `complete`);
and a `complete` session is never demoted by a later edit or validation
pass. -/
theorem status_transition_rules (V : Validator) (s : FormSession) (p : String)
    (v : JsonValue) :
    ((runSchemaValidation V s).status =
      if sessionValid V s then FormStatus.complete else s.status) ∧
    (s.status = FormStatus.notStarted →
      (setFieldValue V s p v).status = FormStatus.inProgress ∨
      (setFieldValue V s p v).status = FormStatus.complete) ∧
    (s.status = FormStatus.complete →
      (setFieldValue V s p v).status = FormStatus.complete ∧
      (runSchemaValidation V s).status = FormStatus.complete) := by
  refine ⟨runSchemaValidation_status_eq V s, ?_, ?_⟩
  · intro hns
    rw [setFieldValue_status_eq]
    by_cases hval : postValid V s p v
    · right
      simp [hval]
    · left
      simp [hval, hns]
  · intro hc
    have hcn : s.status ≠ FormStatus.notStarted := by
      rw [hc]
      intro hx
      cases hx
    constructor
    · rw [setFieldValue_status_eq]
      by_cases hval : postValid V s p v
      · simp [hval]
      · simp [hval, hcn, hc]
    · rw [runSchemaValidation_status_eq]
      by_cases hval : sessionValid V s <;> simp [hval, hc]

theorem applyMove_navInv (m : NavMove) (s : FormSession) (h : navInv s) :
    navInv (applyMove m s) := by
  cases m
  · unfold applyMove moveToNextQuestion
    by_cases hlt : s.currentQuestionIndex < s.questionOrder.length - 1
    · simp only [hlt, if_true, navInv]
      simp only [navInv] at h
      omega
    · simpa only [hlt, if_false] using h
  · unfold applyMove moveToPreviousQuestion
    by_cases hgt : s.currentQuestionIndex > 0
    · simp only [hgt, if_true, navInv]
      simp only [navInv] at h
      omega
    · simpa only [hgt, if_false] using h

theorem applyMoves_navInv (ms : List NavMove) (s : FormSession) (h : navInv s) :
    navInv (applyMoves ms s) := by
  induction ms generalizing s with
  | nil => exact h
  | cons m rest ih => exact ih _ (applyMove_navInv m s h)

/-- C5: after any finite sequence of navigation calls the index stays
within `[0, max(0, len(questionOrder)-1)]`; `moveToNext` at the last
valid index and `moveToPrevious` at index `0` are no-ops; and on a
session with empty `questionOrder` (whose index is in bounds, hence
`0`) both calls are no-ops — navigation never wraps. -/
theorem navigation_bounds (s : FormSession) (ms : List NavMove) (h : navInv s) :
    navInv (applyMoves ms s) ∧
    (s.currentQuestionIndex = s.questionOrder.length - 1 → moveToNextQuestion s = s) ∧
    (s.currentQuestionIndex = 0 → moveToPreviousQuestion s = s) ∧
    (s.questionOrder = [] →
      moveToNextQuestion s = s ∧ moveToPreviousQuestion s = s) := by
  refine ⟨applyMoves_navInv ms s h, ?_, ?_, ?_⟩
  · intro hlast
    unfold moveToNextQuestion
    simp [hlast]
  · intro h0
    unfold moveToPreviousQuestion
    simp [h0]
  · intro hnil
    have h0 : s.currentQuestionIndex = 0 := by
      simp only [navInv, hnil, List.length_nil] at h
      omega
    constructor
    · unfold moveToNextQuestion
      simp [hnil, h0]
    · unfold moveToPreviousQuestion
      simp [h0]

theorem deriveQuestionOrder_object (ps : List (String × JsonSchema)) (base : String) :
    deriveQuestionOrder (JsonSchema.mk (some "object") (some ps)) base =
      derivePropsOrder ps base := by
  unfold deriveQuestionOrder
  simp

theorem derivePropsOrder_cons (key : String) (child : JsonSchema)
    (rest : List (String × JsonSchema)) (base : String) :
    derivePropsOrder ((key, child) :: rest) base =
      (childPath base key :: deriveQuestionOrder child (childPath base key))
        ++ derivePropsOrder rest base := by
  rw [derivePropsOrder]

/-- C6: `deriveQuestionOrder` is a depth-first pre-order traversal —
for an object-typed schema each property's path is emitted before all
paths of that property's own children, followed by the remaining
sibling properties; a schema that is not object-typed with named
properties contributes nothing below its own path (so non-object
leaves contribute exactly their own path when listed as a property);
and on the spec example schema the result is exactly
`["a", "b", "b.c"]`. -/
theorem deriveQuestionOrder_preorder :
    (∀ (key : String) (child : JsonSchema) (rest : List (String × JsonSchema)) (base : String),
      deriveQuestionOrder (JsonSchema.mk (some "object") (some ((key, child) :: rest))) base =
        (childPath base key :: deriveQuestionOrder child (childPath base key))
          ++ deriveQuestionOrder (JsonSchema.mk (some "object") (some rest)) base) ∧
    (∀ (ty : Option String) (props : Option (List (String × JsonSchema))) (base : String),
      (ty ≠ some "object" ∨ props = none) →
      deriveQuestionOrder (JsonSchema.mk ty props) base = []) ∧
    deriveQuestionOrder exampleNestedSchema "" = ["a", "b", "b.c"] := by
  refine ⟨?_, ?_, rfl⟩
  · intro key child rest base
    rw [deriveQuestionOrder_object, deriveQuestionOrder_object, derivePropsOrder_cons]
  · intro ty props base h
    unfold deriveQuestionOrder
    by_cases hty : ty = some "object"
    · have hp : props = none := by
        rcases h with h1 | h1
        · exact absurd hty h1
        · exact h1
      subst hp
      simp [hty]
    · simp [hty]

/-- C7: `createSession` on an unregistered form id fails with the
FormNotFound error before mutating the store; on a registered id it
returns (and stores) a session with the supplied fresh id, empty
`data` and `fields`, status `not-started`, overall validity `unknown`,
index `0`, and `questionOrder` derived from the registered
definition's schema, snapshotting that definition. -/
theorem createSession_spec (st : InMemoryFormStore) (formId newId : String)
    (userId : Option String) :
    (alLookup st.forms formId = none →
      createSession st formId userId newId =
        (st, Except.error ("Form not found: " ++ formId))) ∧
    (∀ form, alLookup st.forms formId = some form →
      ∃ session, createSession st formId userId newId =
          ({ st with sessions := alUpdate st.sessions newId session }, Except.ok session) ∧
        session.sessionId = newId ∧
        session.formId = formId ∧
        session.definitionSnapshot = form ∧
        session.data = [] ∧
        session.fields = [] ∧
        session.status = FormStatus.notStarted ∧
        session.overallValidity = FormOverallValidity.unknown ∧
        session.currentQuestionIndex = 0 ∧
        session.questionOrder = deriveQuestionOrder form.schema "") := by
  constructor
  · intro h
    simp [createSession, h]
  · intro form h
    have heq : createSession st formId userId newId =
        ({ st with sessions :=
            alUpdate st.sessions newId (mkFreshSession form formId newId userId) },
          Except.ok (mkFreshSession form formId newId userId)) := by
      simp [createSession, h, mkFreshSession]
    exact ⟨_, heq, rfl, rfl, rfl, rfl, rfl, rfl, rfl, rfl, rfl⟩

/-- C9: document reconstruction — `setDeepValue` splits the path on
`.` and walks the nested containers: the final segment is a plain
assignment; an intermediate segment reuses an existing object
container and silently replaces anything else (a primitive, `null`, or
a missing key) with a fresh container; every function involved is
total, so no combination of flat paths errors; and overlapping paths
resolve last-write-wins in data iteration order
(`{a: 1, "a.b": 2}` reconstructs to `{a: {b: 2}}`). -/
theorem setDeepValue_reconstruction :
    (∀ (target : List (String × JsonValue)) (path : String) (v : JsonValue),
      setDeepValue target path v = setDeepParts target (splitOnDot path) v) ∧
    (∀ (target : List (String × JsonValue)) (key : String) (v : JsonValue),
      setDeepParts target [key] v = alUpdate target key v) ∧
    (∀ (target : List (String × JsonValue)) (key k2 : String) (rest : List String)
        (v : JsonValue),
      setDeepParts target (key :: k2 :: rest) v =
        alUpdate target key
          (JsonValue.obj (setDeepParts (childContainer target key) (k2 :: rest) v))) ∧
    (∀ (target : List (String × JsonValue)) (key : String) (o : List (String × JsonValue)),
      alLookup target key = some (JsonValue.obj o) → childContainer target key = o) ∧
    (∀ (target : List (String × JsonValue)) (key : String) (w : JsonValue),
      alLookup target key = some w → (∀ o, w ≠ JsonValue.obj o) →
      childContainer target key = []) ∧
    (∀ (target : List (String × JsonValue)) (key : String),
      alLookup target key = none → childContainer target key = []) ∧
    buildDocument [("a", JsonValue.num 1), ("a.b", JsonValue.num 2)] =
      [("a", JsonValue.obj [("b", JsonValue.num 2)])] := by
  refine ⟨fun _ _ _ => rfl, fun _ _ _ => rfl, fun _ _ _ _ _ => rfl, ?_, ?_, ?_, rfl⟩
  · intro target key o h
    unfold childContainer
    rw [h]
  · intro target key w h hno
    unfold childContainer
    rw [h]
    cases w with
    | obj o => exact (hno o rfl).elim
    | null => rfl
    | bool b => rfl
    | num n => rfl
    | str s => rfl
  · intro target key h
    unfold childContainer
    rw [h]

/-- C10: a fresh `not-started` session with empty `data` whose snapshot
schema accepts the empty document jumps straight to `complete` on
`runSchemaValidation` — `overallValidity` becomes `valid` and `status`
skips `in-progress` entirely. -/
theorem validation_skips_inProgress (V : Validator)
    (h : (V objSchemaA (JsonValue.obj [])).1 = true) :
    freshSessionA.status = FormStatus.notStarted ∧
    freshSessionA.data = [] ∧
    (runSchemaValidation V freshSessionA).overallValidity = FormOverallValidity.valid ∧
    (runSchemaValidation V freshSessionA).status = FormStatus.complete := by
  have hv : sessionValid V freshSessionA = true := h
  refine ⟨rfl, rfl, ?_, ?_⟩
  · rw [runSchemaValidation_validity_eq]
    simp [hv]
  · rw [runSchemaValidation_status_eq]
    simp [hv]

theorem moveToNextQuestion_fields_eq (s : FormSession) :
    (moveToNextQuestion s).fields = s.fields := by
  unfold moveToNextQuestion
  split <;> rfl

theorem moveToNextQuestion_data_eq (s : FormSession) :
    (moveToNextQuestion s).data = s.data := by
  unfold moveToNextQuestion
  split <;> rfl

theorem moveToPreviousQuestion_fields_eq (s : FormSession) :
    (moveToPreviousQuestion s).fields = s.fields := by
  unfold moveToPreviousQuestion
  split <;> rfl

theorem moveToPreviousQuestion_data_eq (s : FormSession) :
    (moveToPreviousQuestion s).data = s.data := by
  unfold moveToPreviousQuestion
  split <;> rfl

/-- C1 counterexample: on a session whose `questionOrder` is empty,
`setFieldValue` for the untracked path `"x"` writes `data["x"]` and
ALSO creates a `fields["x"]` entry (upserted with `touched = true`),
refuting "path never has an entry in session.fields". -/
theorem setFieldValue_outside_order_creates_field_entry :
    emptyOrderSession.questionOrder = [] ∧
    alLookup (setFieldValue acceptAllValidator emptyOrderSession "x" (JsonValue.str "hi")).data
      "x" = some (JsonValue.str "hi") ∧
    alLookup (setFieldValue acceptAllValidator emptyOrderSession "x" (JsonValue.str "hi")).fields
      "x" = some { path := "x", value := some (JsonValue.str "hi"), schemaValid := false,
                   messages := [], touched := true } :=
  ⟨rfl, rfl, rfl⟩

/-- C1 (amended): for a path outside `questionOrder`,
`setFieldValue(session, path, value)` stores `data[path] = value`
without error, and also upserts a `fields[path]` entry with
`touched = true`; `runSchemaValidation` never creates or rewrites a
`fields` entry for such a path (only `questionOrder` paths are
rewritten) and leaves `data` unchanged; navigation touches neither
`data` nor `fields`. -/
theorem untracked_paths_amended (V : Validator) (s : FormSession) (p : String)
    (v : JsonValue) (m : NavMove) (h : p ∉ s.questionOrder) :
    alLookup (setFieldValue V s p v).data p = some v ∧
    (∃ e, alLookup (setFieldValue V s p v).fields p = some e ∧ e.touched = true) ∧
    alLookup (runSchemaValidation V s).fields p = alLookup s.fields p ∧
    (runSchemaValidation V s).data = s.data ∧
    (applyMove m s).fields = s.fields ∧
    (applyMove m s).data = s.data := by
  refine ⟨?_, ?_, ?_, rfl, ?_, ?_⟩
  · rw [setFieldValue_eq, runSchemaValidation_data_eq]
    exact alLookup_alUpdate_self s.data p v
  · rw [setFieldValue_eq]
    set updated : FormFieldState :=
      { path := p
        value := some v
        schemaValid := ((alLookup s.fields p).map FormFieldState.schemaValid).getD false
        messages := ((alLookup s.fields p).map FormFieldState.messages).getD []
        touched := true } with hupd
    set s1 : FormSession :=
      { s with
          data := alUpdate s.data p v
          fields := alUpdate s.fields p updated
          status := if s.status = FormStatus.notStarted then FormStatus.inProgress
            else s.status } with hs1
    have hl : alLookup s1.fields p = some updated := alLookup_alUpdate_self s.fields p updated
    obtain ⟨e2, h2, _, _, ht2⟩ :=
      rewriteFields_preserve (fieldErrorsFor (sessionErrors V s1)) s1.questionOrder
        s1.fields p updated hl
    refine ⟨e2, ?_, ?_⟩
    · rw [runSchemaValidation_fields_eq]
      exact h2
    · rw [ht2]
  · rw [runSchemaValidation_fields_eq]
    exact rewriteFields_notMem _ _ _ _ h
  · cases m
    · exact moveToNextQuestion_fields_eq s
    · exact moveToPreviousQuestion_fields_eq s
  · cases m
    · exact moveToNextQuestion_data_eq s
    · exact moveToPreviousQuestion_data_eq s

/-- Witness for the amended C1 theorem at a concrete session, path,
value, and navigation move. -/
theorem untracked_paths_amended_witness :
    alLookup (setFieldValue acceptAllValidator emptyOrderSession "y" (JsonValue.num 7)).data "y"
      = some (JsonValue.num 7) ∧
    (∃ e, alLookup (setFieldValue acceptAllValidator emptyOrderSession "y"
        (JsonValue.num 7)).fields "y" = some e ∧ e.touched = true) ∧
    alLookup (runSchemaValidation acceptAllValidator emptyOrderSession).fields "y" =
      alLookup emptyOrderSession.fields "y" ∧
    (runSchemaValidation acceptAllValidator emptyOrderSession).data = emptyOrderSession.data ∧
    (applyMove NavMove.next emptyOrderSession).fields = emptyOrderSession.fields ∧
    (applyMove NavMove.next emptyOrderSession).data = emptyOrderSession.data :=
  untracked_paths_amended acceptAllValidator emptyOrderSession "y" (JsonValue.num 7)
    NavMove.next (by decide)

/-- Witness for C2 at a concrete session whose `questionOrder` is
`["a"]` and a validator attributing one violation to `/a`. -/
theorem validation_rewrites_all_order_fields_witness :
    ∃ e, alLookup (runSchemaValidation rejectValidatorA orderASession).fields "a" = some e ∧
      (e.schemaValid = true ↔
        fieldErrorsFor (sessionErrors rejectValidatorA orderASession) "a" = []) ∧
      e.messages = fieldErrorsFor (sessionErrors rejectValidatorA orderASession) "a" :=
  validation_rewrites_all_order_fields rejectValidatorA orderASession "a" (by decide)

/-- Witness for C3 at concrete sessions: one `not-started`, one
`complete`. -/
theorem status_transition_rules_witness :
    ((runSchemaValidation acceptAllValidator emptyOrderSession).status =
      if sessionValid acceptAllValidator emptyOrderSession then FormStatus.complete
      else emptyOrderSession.status) ∧
    ((setFieldValue acceptAllValidator emptyOrderSession "x" (JsonValue.str "hi")).status =
        FormStatus.inProgress ∨
      (setFieldValue acceptAllValidator emptyOrderSession "x" (JsonValue.str "hi")).status =
        FormStatus.complete) ∧
    ((setFieldValue acceptAllValidator completeSession "x" (JsonValue.str "hi")).status =
        FormStatus.complete ∧
      (runSchemaValidation acceptAllValidator completeSession).status = FormStatus.complete) :=
  ⟨(status_transition_rules acceptAllValidator emptyOrderSession "x" (JsonValue.str "hi")).1,
   (status_transition_rules acceptAllValidator emptyOrderSession "x" (JsonValue.str "hi")).2.1 rfl,
   (status_transition_rules acceptAllValidator completeSession "x" (JsonValue.str "hi")).2.2 rfl⟩

/-- Witness for C5 at concrete sessions with one-element and empty
question orders. -/
theorem navigation_bounds_witness :
    navInv (applyMoves [NavMove.next, NavMove.prev] orderASession) ∧
    moveToNextQuestion orderASession = orderASession ∧
    moveToPreviousQuestion orderASession = orderASession ∧
    (moveToNextQuestion emptyOrderSession = emptyOrderSession ∧
      moveToPreviousQuestion emptyOrderSession = emptyOrderSession) := by
  have T1 := navigation_bounds orderASession [NavMove.next, NavMove.prev]
    (by simp [navInv, orderASession])
  have T2 := navigation_bounds emptyOrderSession [] (by simp [navInv, emptyOrderSession])
  exact ⟨T1.1, T1.2.1 rfl, T1.2.2.1 rfl, T2.2.2.2 rfl⟩

/-- Witness for C6's non-object clause at a concrete leaf schema. -/
theorem deriveQuestionOrder_preorder_witness :
    deriveQuestionOrder (JsonSchema.mk (some "string") none) "x" = [] :=
  deriveQuestionOrder_preorder.2.1 (some "string") none "x" (Or.inl (by decide))

/-- Witness for C7 at a concrete store: a missing id fails without
mutation, the registered id creates the expected fresh session. -/
theorem createSession_spec_witness :
    (createSession storeA "missing" none "sid1" =
      (storeA, Except.error ("Form not found: " ++ "missing"))) ∧
    (∃ session, createSession storeA "form-a" none "sid2" =
        ({ storeA with sessions := alUpdate storeA.sessions "sid2" session },
          Except.ok session) ∧
      session.sessionId = "sid2" ∧
      session.formId = "form-a" ∧
      session.definitionSnapshot = formA ∧
      session.data = [] ∧
      session.fields = [] ∧
      session.status = FormStatus.notStarted ∧
      session.overallValidity = FormOverallValidity.unknown ∧
      session.currentQuestionIndex = 0 ∧
      session.questionOrder = deriveQuestionOrder formA.schema "") :=
  ⟨(createSession_spec storeA "missing" "sid1" none).1 rfl,
   (createSession_spec storeA "form-a" "sid2" none).2 formA rfl⟩

/-- Witness for C9's container clauses at concrete targets. -/
theorem setDeepValue_reconstruction_witness :
    childContainer [("k", JsonValue.num 3)] "k" = [] ∧
    childContainer [("k", JsonValue.obj [("z", JsonValue.null)])] "k" = [("z", JsonValue.null)] ∧
    childContainer ([] : List (String × JsonValue)) "k" = [] :=
  ⟨setDeepValue_reconstruction.2.2.2.2.1 [("k", JsonValue.num 3)] "k" (JsonValue.num 3) rfl
      (fun _ hx => JsonValue.noConfusion hx),
   setDeepValue_reconstruction.2.2.2.1 [("k", JsonValue.obj [("z", JsonValue.null)])] "k"
      [("z", JsonValue.null)] rfl,
   setDeepValue_reconstruction.2.2.2.2.2.1 [] "k" rfl⟩

/-- Witness for C10 with a concrete validator that accepts the empty
document. -/
theorem validation_skips_inProgress_witness :
    freshSessionA.status = FormStatus.notStarted ∧
    freshSessionA.data = [] ∧
    (runSchemaValidation acceptAllValidator freshSessionA).overallValidity =
      FormOverallValidity.valid ∧
    (runSchemaValidation acceptAllValidator freshSessionA).status = FormStatus.complete :=
  validation_skips_inProgress acceptAllValidator rfl
